import Mathlib

/-!
# Verification of the `multiColumnSorting` plugin (handsontable-pro)

Shallow embedding of `src/plugins/multiColumnSorting/multiColumnSorting.js`
(the plugin orchestrator and the `dateSort` comparator strategy), together
with the parts of the plugin that the bundled sources reference but do not
contain (`RowsMapper`, `areValidSortStates`, the comparator-engine chaining,
the `isEmpty` helper and the stable merge sort); those are modelled from the
specification and marked as such in their doc comments.

JavaScript values that take part in sorting are modelled by `JSVal`
(numbers restricted to integers, which is all the claims exercise);
`moment(value, dateFormat)` parsing is abstracted as a per-column function
`parse : JSVal → Option Int` returning a chronological timestamp.
-/

/-- A JavaScript cell value, as seen by the sorting comparators. -/
inductive JSVal where
  | null
  | undefined
  | str (s : String)
  | num (n : Int)
deriving DecidableEq, Repr

/-- Modelled from the spec: the shared emptiness predicate
(`isEmpty` from `handsontable/helpers/mixed`, not under `src/`):
`null`, `undefined` and the empty string have "no meaningful content". -/
def isEmptyVal : JSVal → Bool
  | JSVal.null => true
  | JSVal.undefined => true
  | JSVal.str "" => true
  | _ => false

/-- Modelled from the spec: comparator outcome constant `DO_NOT_SWAP`
(from `./utils`, not under `src/`): "equal / no-preference". -/
def DO_NOT_SWAP : Int := 0

/-- Modelled from the spec: comparator outcome constant `FIRST_BEFORE_SECOND`. -/
def FIRST_BEFORE_SECOND : Int := -1

/-- Modelled from the spec: comparator outcome constant `FIRST_AFTER_SECOND`. -/
def FIRST_AFTER_SECOND : Int := 1

/--
The date comparison strategy, translated from `dateSort` in
`src/plugins/multiColumnSorting/multiColumnSorting.js` (lines 1585-1644).

`parse` abstracts `moment(value, columnMeta.dateFormat)`: `none` models an
invalid (unparsable) moment, `some t` a valid one with timestamp `t`.
`nextColumnSortResult` is the value of
`getNextColumnSortResult(...)` for the following criterion, passed in by the
comparator chain (`compareList` below).
-/
def dateSort (parse : JSVal → Option Int) (sortEmptyCells : Bool) (sortOrder : String)
    (value nextValue : JSVal) (nextColumnSortResult : Int) : Int :=
  if value = nextValue then
    -- Two equal values, we check if sorting should be performed for next columns.
    nextColumnSortResult
  else if isEmptyVal value then
    if isEmptyVal nextValue then
      nextColumnSortResult
    else if sortEmptyCells then
      (if sortOrder = "asc" then FIRST_BEFORE_SECOND else FIRST_AFTER_SECOND)
    else
      FIRST_AFTER_SECOND
  else if isEmptyVal nextValue then
    if sortEmptyCells then
      (if sortOrder = "asc" then FIRST_AFTER_SECOND else FIRST_BEFORE_SECOND)
    else
      FIRST_BEFORE_SECOND
  else
    match parse value, parse nextValue with
    | none, _ => FIRST_AFTER_SECOND
    | some _, none => FIRST_BEFORE_SECOND
    | some firstDate, some nextDate =>
      if firstDate < nextDate then
        (if sortOrder = "asc" then FIRST_BEFORE_SECOND else FIRST_AFTER_SECOND)
      else if nextDate < firstDate then
        (if sortOrder = "asc" then FIRST_AFTER_SECOND else FIRST_BEFORE_SECOND)
      else
        DO_NOT_SWAP

/-- The concrete string value of a `JSVal`, used by the generic strategy. -/
def jsToString : JSVal → String
  | JSVal.null => ""
  | JSVal.undefined => ""
  | JSVal.str s => s
  | JSVal.num n => toString n

/-- Modelled from the spec: the generic strategy's "natural ordering
appropriate to inferred type (numeric compare for numbers, locale-aware
string compare otherwise)". -/
def naturalCompare : JSVal → JSVal → Int
  | JSVal.num a, JSVal.num b => if a < b then -1 else if b < a then 1 else 0
  | a, b =>
    if jsToString a < jsToString b then -1
    else if jsToString b < jsToString a then 1
    else 0

/-- Modelled from the spec: the generic comparison strategy (`defaultSort`,
not under `src/`): same empty-cell policy as the date strategy, natural
ordering otherwise, inverted by direction; equal values defer to the next
criterion. -/
def defaultSort (sortEmptyCells : Bool) (sortOrder : String)
    (value nextValue : JSVal) (nextColumnSortResult : Int) : Int :=
  if value = nextValue then
    nextColumnSortResult
  else if isEmptyVal value then
    if isEmptyVal nextValue then
      nextColumnSortResult
    else if sortEmptyCells then
      (if sortOrder = "asc" then FIRST_BEFORE_SECOND else FIRST_AFTER_SECOND)
    else
      FIRST_AFTER_SECOND
  else if isEmptyVal nextValue then
    if sortEmptyCells then
      (if sortOrder = "asc" then FIRST_AFTER_SECOND else FIRST_BEFORE_SECOND)
    else
      FIRST_BEFORE_SECOND
  else
    let r := naturalCompare value nextValue
    if sortOrder = "asc" then r else -r

/-- Which built-in comparison strategy a column uses. -/
inductive CompareType where
  | date
  | generic
deriving DecidableEq, Repr

/-- The merged per-column plugin settings relevant to sorting: the
`sortEmptyCells` flag, the selected strategy and the date-parsing function
(`moment` with the column's `dateFormat`). -/
structure ColMeta where
  sortEmptyCells : Bool
  cmpType : CompareType
  parse : JSVal → Option Int

/-- A row snapshot, `[visualRowIndex, ...values]` in the source:
the pre-sort visual row index paired with the row's values under the
sorted columns, in criteria order. -/
abbrev Snapshot := Nat × List JSVal

/-- Modelled from the spec: the comparator-engine chain
(`mainSortComparator` / `getNextColumnSortResult` from
`./comparatorEngine` and `./utils`, not under `src/`): evaluate the
strategy of criterion `idx`; at each defer point the strategy receives the
result for criterion `idx + 1`; when no criteria remain the result is
`DO_NOT_SWAP`.  Missing values (out-of-range `values[idx]`) read as
JavaScript `undefined`. -/
def compareList : List (String × ColMeta) → Nat → List JSVal → List JSVal → Int
  | [], _, _, _ => DO_NOT_SWAP
  | (sortOrder, meta) :: rest, idx, values, nextValues =>
    let value := values.getD idx JSVal.undefined
    let nextValue := nextValues.getD idx JSVal.undefined
    let nextColumnSortResult := compareList rest (idx + 1) values nextValues
    match meta.cmpType with
    | CompareType.date =>
      dateSort meta.parse meta.sortEmptyCells sortOrder value nextValue nextColumnSortResult
    | CompareType.generic =>
      defaultSort meta.sortEmptyCells sortOrder value nextValue nextColumnSortResult

/-- Modelled from the spec: the composite comparator built by
`mainSortComparator(sortOrders, columnMetas)`; compares two row snapshots
starting at criterion 0. -/
def mainSortComparator (specs : List (String × ColMeta)) (a b : Snapshot) : Int :=
  compareList specs 0 a.2 b.2

/-- One entry of a sort configuration / sort state: a column index and a
sort direction string (`"asc"` / `"desc"` when recognized). -/
structure Criterion where
  column : Int
  sortOrder : String
deriving DecidableEq, Repr

/-- Modelled from the spec: `areValidSortStates` from `./utils` (not under
`src/`): every direction must be one of the two recognized values and no
column may appear twice. -/
def areValidSortStates (sortStates : List Criterion) : Bool :=
  sortStates.all (fun c => c.sortOrder = "asc" || c.sortOrder = "desc") &&
    decide (sortStates.map (fun c => c.column)).Nodup

/-- The host (Handsontable instance) facilities the plugin reads:
row/column counts, the `maxRows` / `minSpareRows` settings (`maxRows = none`
models the `Infinity` default) and raw cell data
(`getDataAtCell` with plugin translation blocked), plus the merged
per-column plugin settings produced by `getFirstCellSettings`. -/
structure Host where
  countRows : Nat
  countCols : Nat
  maxRows : Option Nat
  minSpareRows : Nat
  cellData : Nat → Int → JSVal
  colMeta : Int → ColMeta

/-- The plugin's own mutable state: the criteria queue held by the
`ColumnStatesManager`, the `RowsMapper`'s `_arrayMap`, the
`blockPluginTranslation` flag, and the settings blob written through
`persistentStateSave`. -/
structure PluginState where
  sortStates : List Criterion
  rowsMapperArray : List Nat
  blockPluginTranslation : Bool
  savedSettings : Option (List Criterion)
deriving DecidableEq, Repr

namespace MultiColumnSorting

/-- The plugin's registered name, used as the `source` tag of its own
internal index-translation requests. -/
def pluginName : String := "multiColumnSorting"

/-- Translated from `MultiColumnSorting.getNumberOfRowsToSort`
(lines 482-491): `maxRows` is returned as-is when it does not exceed the
row count (the source comment notes `maxRows` does not take
`minSpareRows` into account in this case); otherwise the spare rows are
subtracted.  The JavaScript subtraction can go negative, hence `Int`. -/
def getNumberOfRowsToSort (maxRows : Option Nat) (minSpareRows : Nat)
    (numberOfRows : Nat) : Int :=
  match maxRows with
  | some m =>
    if m ≤ numberOfRows then (m : Int)
    else (numberOfRows : Int) - (minSpareRows : Int)
  | none => (numberOfRows : Int) - (minSpareRows : Int)

/-- `getSortedColumns` of the `ColumnStatesManager`: the queue's column
indexes, in priority order. -/
def sortedColumns (st : PluginState) : List Int :=
  st.sortStates.map (fun c => c.column)

/-- The `(sortOrder, columnMeta)` pair for each criterion, as assembled at
lines 520-523 of the source before calling `mergeSort`. -/
def criteriaSpecs (host : Host) (st : PluginState) : List (String × ColMeta) :=
  st.sortStates.map (fun c => (c.sortOrder, host.colMeta c.column))

/-- The row snapshot `[visualRowIndex].concat(getDataForSortedColumns(visualRowIndex))`
built at lines 516-518: raw (untranslated) reads of the sorted columns. -/
def rowSnapshot (host : Host) (cols : List Int) (r : Nat) : Snapshot :=
  (r, cols.map (fun c => host.cellData r c))

/-- The Boolean ordering handed to the stable merge sort: the composite
comparator's verdict `≤ 0` keeps the left element first. -/
def snapshotLe (host : Host) (st : PluginState) (a b : Snapshot) : Bool :=
  mainSortComparator (criteriaSpecs host st) a b ≤ 0

/--
Translated from `MultiColumnSorting.sortByPresetSortState` (lines 498-535).
If the criteria queue is empty the rows mapper is cleared.  Otherwise the
participating rows `0 ≤ r < getNumberOfRowsToSort(countRows)` are
snapshotted (raw reads, translation blocked), sorted by the stable merge
sort under the composite comparator, the remaining (spare) rows are
appended untouched in original order, the translation blockade is released,
and the mapper's array receives the first component of each snapshot.
The stable sort (`handsontable/utils/sortingAlgorithms/mergeSort`, not
under `src/`) is modelled from the spec by `List.mergeSort`, which is
stable and takes the left element when the comparator result is `≤ 0`.
-/
def sortByPresetSortState (host : Host) (st : PluginState) : PluginState :=
  if st.sortStates.isEmpty then
    { st with rowsMapperArray := [] }
  else
    let cols := sortedColumns st
    let numberOfRows := host.countRows
    let k := (getNumberOfRowsToSort host.maxRows host.minSpareRows numberOfRows).toNat
    let indexesWithData := (List.range k).map (rowSnapshot host cols)
    let sorted := indexesWithData.mergeSort (snapshotLe host st)
    let withSpareRows := sorted ++ (List.range' k (numberOfRows - k)).map (rowSnapshot host cols)
    { st with
      blockPluginTranslation := false
      rowsMapperArray := withSpareRows.map (fun s => s.1) }

/-- Translated from `MultiColumnSorting.areValidSortConfigs` (lines 301-310):
`areValidSortStates` on the untranslated configs, and every column index
must satisfy `visualColumn <= numberOfColumns && visualColumn >= 0`
(note the non-strict upper bound, as in the source). -/
def areValidSortConfigs (countCols : Nat) (sortConfigs : List Criterion) : Bool :=
  let sortedCols := sortConfigs.map (fun c => c.column)
  let onlyExistingVisualIndexes :=
    sortedCols.all (fun visualColumn => visualColumn ≤ (countCols : Int) && 0 ≤ visualColumn)
  areValidSortStates sortConfigs && onlyExistingVisualIndexes

/-- The argument of `sort(sortConfig)`: `undefined`, a single configuration
object, or an array of them. -/
inductive SortInput where
  | undef
  | single (c : Criterion)
  | configs (cs : List Criterion)

/-- The normalization at lines 216-224: `sort` always hands an array to the
hooks. -/
def normalizeSortConfig : SortInput → List Criterion
  | SortInput.undef => []
  | SortInput.single c => [c]
  | SortInput.configs cs => cs

/--
Translated from `MultiColumnSorting.sort` (lines 211-248).
`toPhysicalColumn` is the host's column translation; `allowSort` is the
value returned by the `beforeColumnSort` hook (the call aborts when it is
exactly `false`).  The result pairs the new plugin state with the validity
flag passed to `afterColumnSort` (`none` when the call was vetoed and the
hook never fired).
-/
def sort (host : Host) (toPhysicalColumn : Int → Int) (allowSort : Bool)
    (st : PluginState) (sortConfig : SortInput) : PluginState × Option Bool :=
  let destinationSortConfigs := normalizeSortConfig sortConfig
  let sortPossible := areValidSortConfigs host.countCols destinationSortConfigs
  if allowSort = false then
    (st, none)
  else if sortPossible then
    let destinationSortStates :=
      destinationSortConfigs.map (fun c => { c with column := toPhysicalColumn c.column })
    let st1 := { st with sortStates := destinationSortStates }
    let st2 := sortByPresetSortState host st1
    let st3 := { st2 with savedSettings := some st2.sortStates }
    (st3, some sortPossible)
  else
    (st, some sortPossible)

/-- Modelled from the spec: the Order Mapper's
`valueAt(visualIndex) -> physicalIndex|absent`
(`RowsMapper.getValueByIndex`, not under `src/`): the mapper array's entry
at `index`, absent (`null`) when there is none. -/
def getValueByIndex (st : PluginState) (index : Nat) : Option Nat :=
  st.rowsMapperArray.get? index

/-- Translated from `MultiColumnSorting.onModifyRow` (lines 544-551):
translate only when translation is not blocked and the request does not
carry the plugin's own source tag; an absent mapper entry falls back to the
input index. -/
def onModifyRow (st : PluginState) (row : Nat) (source : String) : Nat :=
  if st.blockPluginTranslation = false ∧ source ≠ pluginName then
    match getValueByIndex st row with
    | none => row
    | some rowInMapper => rowInMapper
  else
    row

/-- Translated from `MultiColumnSorting.getFirstCellSettings`
(lines 456-473): sets the translation blockade, (re)builds the merged
per-column settings cache when needed (the cache's content always mirrors
the host's merged settings, so the memoization is elided here), reads the
first cell's meta, releases the blockade and returns the merged settings. -/
def getFirstCellSettings (host : Host) (st : PluginState) (column : Int) :
    ColMeta × PluginState :=
  let st1 := { st with blockPluginTranslation := true }
  let cellMeta := host.colMeta column
  let st2 := { st1 with blockPluginTranslation := false }
  (cellMeta, st2)

end MultiColumnSorting

namespace MultiColumnSorting

/-! ## Concrete hosts and states used by witnesses and counterexamples -/

/-- The integer value of a `JSVal`, used by `totalParse`. -/
def valNum : JSVal → Int
  | JSVal.num n => n
  | _ => 0

/-- A date-parsing function under which every value is a valid moment
(used to witness a column whose composite comparator is consistent). -/
def totalParse (v : JSVal) : Option Int := some (valNum v)

/-- The sort key realized by `dateSort` with `totalParse`, ascending order
and `sortEmptyCells = false`: empty values sort at the top (after
everything), non-empty ones by their timestamp. -/
def keyOfW (v : JSVal) : WithTop Int :=
  if isEmptyVal v then ⊤ else (valNum v : WithTop Int)

/-- A date-parsing function for the concrete examples: `moment` parsing
modelled so that numeric values carry their chronological order and the
string `"2020"` is the only parsable string; per the spec the values `3`
and `5` of the empty-cell example parse in numeric order. -/
def exampleParse : JSVal → Option Int
  | JSVal.num n => some n
  | JSVal.str "2020" => some 2020
  | _ => none

/-- Host for the spec's empty-cell placement example: one sorted column
with values `[5, null, 3]`, `sortEmptyCells` as given. -/
def exampleHost (sec : Bool) : Host :=
  { countRows := 3
    countCols := 1
    maxRows := none
    minSpareRows := 0
    cellData := fun r _ => [JSVal.num 5, JSVal.null, JSVal.num 3].getD r JSVal.null
    colMeta := fun _ =>
      { sortEmptyCells := sec, cmpType := CompareType.date, parse := exampleParse } }

/-- A plugin state whose criteria queue sorts column 0 ascending. -/
def exState0 : PluginState :=
  { sortStates := [{ column := 0, sortOrder := "asc" }]
    rowsMapperArray := []
    blockPluginTranslation := false
    savedSettings := none }

/-- Host for the stability counterexample: one date column, ascending, with
values `["foo", "bar", "foo", "2020"]` — rows 0 and 2 are fully equal, yet
`"foo"` and `"bar"` are both unparsable, so each compares after the other. -/
def cxHost : Host :=
  { countRows := 4
    countCols := 1
    maxRows := none
    minSpareRows := 0
    cellData := fun r _ =>
      [JSVal.str "foo", JSVal.str "bar", JSVal.str "foo", JSVal.str "2020"].getD r JSVal.null
    colMeta := fun _ =>
      { sortEmptyCells := false, cmpType := CompareType.date, parse := exampleParse } }

/-- Host with two columns, used to exercise the configuration validation. -/
def boundHost : Host :=
  { countRows := 1
    countCols := 2
    maxRows := none
    minSpareRows := 0
    cellData := fun _ _ => JSVal.null
    colMeta := fun _ =>
      { sortEmptyCells := false, cmpType := CompareType.date, parse := exampleParse } }

/-- Column settings whose comparator is consistent: date strategy with the
totalizing parse. -/
def w2Meta : ColMeta :=
  { sortEmptyCells := false, cmpType := CompareType.date, parse := totalParse }

/-- Host with two fully equal rows under a consistent date column. -/
def w2Host : Host :=
  { countRows := 2
    countCols := 1
    maxRows := none
    minSpareRows := 0
    cellData := fun _ _ => JSVal.null
    colMeta := fun _ => w2Meta }

/-- State sorting column 0 ascending (used with `w2Host`). -/
def w2State : PluginState :=
  { sortStates := [{ column := 0, sortOrder := "asc" }]
    rowsMapperArray := []
    blockPluginTranslation := false
    savedSettings := none }

/-- A state with an active two-entry rows mapper and translation enabled. -/
def w10State : PluginState :=
  { sortStates := [{ column := 0, sortOrder := "asc" }]
    rowsMapperArray := [5, 7]
    blockPluginTranslation := false
    savedSettings := none }

end MultiColumnSorting

namespace MultiColumnSorting

/-! ## Helper lemmas -/

/-- Two indexes in order form a sublist of `List.range`. -/
theorem pair_sublist_range {i j n : Nat} (hij : i < j) (hjn : j < n) :
    [i, j].Sublist (List.range n) := by
  induction n with
  | zero => omega
  | succ n ih =>
    rw [List.range_succ]
    rcases Nat.lt_or_ge j n with h | h
    · exact (ih h).trans (List.sublist_append_left _ _)
    · have hj : j = n := by omega
      subst hj
      have h1 : [i].Sublist (List.range j) :=
        List.singleton_sublist.mpr (List.mem_range.mpr hij)
      exact List.Sublist.append h1 (List.Sublist.refl [j])

/-- The number of participating rows never exceeds the row count. -/
theorem getNumberOfRowsToSort_le (maxRows : Option Nat) (minSpareRows numberOfRows : Nat) :
    (getNumberOfRowsToSort maxRows minSpareRows numberOfRows).toNat ≤ numberOfRows := by
  cases maxRows with
  | none => simp only [getNumberOfRowsToSort]; omega
  | some m => simp only [getNumberOfRowsToSort]; split <;> omega

/-- Taking the row index back out of a list of row snapshots. -/
theorem map_fst_map_rowSnapshot (host : Host) (cols : List Int) (l : List Nat) :
    (l.map (rowSnapshot host cols)).map (fun s : Snapshot => s.1) = l := by
  rw [List.map_map]
  exact List.map_id' l

/-- Shape of the rows mapper written by a sort pass with a non-empty
criteria queue: the stably sorted participating indexes followed by the
remaining (spare) indexes in original order. -/
theorem sortByPresetSortState_rowsMapperArray (host : Host) (st : PluginState)
    (h : st.sortStates ≠ []) :
    (sortByPresetSortState host st).rowsMapperArray =
      (((List.range ((getNumberOfRowsToSort host.maxRows host.minSpareRows host.countRows).toNat)).map
          (rowSnapshot host (sortedColumns st))).mergeSort
          (snapshotLe host st)).map (fun s : Snapshot => s.1) ++
        List.range' ((getNumberOfRowsToSort host.maxRows host.minSpareRows host.countRows).toNat)
          (host.countRows - (getNumberOfRowsToSort host.maxRows host.minSpareRows host.countRows).toNat) := by
  unfold sortByPresetSortState
  rw [if_neg (by simpa using h)]
  simp only [List.map_append, map_fst_map_rowSnapshot]

/-- A sort pass never touches the criteria queue. -/
theorem sortByPresetSortState_sortStates (host : Host) (st : PluginState) :
    (sortByPresetSortState host st).sortStates = st.sortStates := by
  unfold sortByPresetSortState
  split <;> rfl

/-- The rows mapper produced by a sort pass depends only on the host data
and the criteria queue, not on the rest of the plugin state (the snapshots
are raw reads, taken with translation blocked). -/
theorem sortByPresetSortState_mapper_congr (host : Host) {s t : PluginState}
    (h : s.sortStates = t.sortStates) :
    (sortByPresetSortState host s).rowsMapperArray =
      (sortByPresetSortState host t).rowsMapperArray := by
  have h2 : snapshotLe host s = snapshotLe host t := by
    funext a b
    simp [snapshotLe, criteriaSpecs, h]
  simp only [sortByPresetSortState, sortedColumns, criteriaSpecs, h, h2]
  split <;> rfl

/-- The verdict of `dateSort` under the totalizing parse, ascending and
`sortEmptyCells = false`, is exactly the order of the values' keys. -/
theorem dateSort_totalParse_le_iff (v w : JSVal) :
    (dateSort totalParse false "asc" v w 0 ≤ 0) ↔ keyOfW v ≤ keyOfW w := by
  by_cases hvw : v = w
  · subst hvw; simp [dateSort, keyOfW]
  · by_cases hv : isEmptyVal v <;> by_cases hw : isEmptyVal w <;>
      simp only [dateSort, keyOfW, hvw, hv, hw, totalParse, FIRST_AFTER_SECOND,
        FIRST_BEFORE_SECOND, DO_NOT_SWAP, if_false, if_true, Bool.false_eq_true,
        ite_false, ite_true, reduceIte]
    · simp
    · simp [WithTop.top_le_iff]
    · simp [le_top]
    · rcases lt_trichotomy (valNum v) (valNum w) with h | h | h
      · simp [h, le_of_lt h, WithTop.coe_le_coe]
      · simp [h, WithTop.coe_le_coe]
      · simp [h, not_lt_of_lt h, WithTop.coe_le_coe, not_le_of_lt h]

/-- On `w2Host`/`w2State` the snapshot ordering agrees with the key order
of the first value. -/
theorem snapshotLe_w2_iff (a b : Snapshot) :
    snapshotLe w2Host w2State a b ↔
      keyOfW (a.2.getD 0 JSVal.undefined) ≤ keyOfW (b.2.getD 0 JSVal.undefined) := by
  have h0 : mainSortComparator (criteriaSpecs w2Host w2State) a b =
      dateSort totalParse false "asc" (a.2.getD 0 JSVal.undefined)
        (b.2.getD 0 JSVal.undefined) 0 := rfl
  rw [snapshotLe, h0, decide_eq_true_iff]
  exact dateSort_totalParse_le_iff _ _

/-- The snapshot ordering of `w2Host`/`w2State` is transitive. -/
theorem w2_snapshotLe_trans : ∀ a b c : Snapshot, snapshotLe w2Host w2State a b →
    snapshotLe w2Host w2State b c → snapshotLe w2Host w2State a c := by
  intro a b c hab hbc
  rw [snapshotLe_w2_iff] at hab hbc ⊢
  exact le_trans hab hbc

/-- The snapshot ordering of `w2Host`/`w2State` is total. -/
theorem w2_snapshotLe_total : ∀ a b : Snapshot,
    snapshotLe w2Host w2State a b || snapshotLe w2Host w2State b a := by
  intro a b
  rcases le_total (keyOfW (a.2.getD 0 JSVal.undefined)) (keyOfW (b.2.getD 0 JSVal.undefined))
    with h | h
  · have h1 := (snapshotLe_w2_iff a b).mpr h
    simp [h1]
  · have h1 := (snapshotLe_w2_iff b a).mpr h
    simp [h1]

end MultiColumnSorting

namespace MultiColumnSorting

/-! ## Claims -/

/-- Claim C1: for every row count and every non-empty criteria queue, after
a sort pass (`sortByPresetSortState`) the rows mapper's array is a
permutation of `0 .. countRows - 1`. -/
theorem sortByPresetSortState_perm_range (host : Host) (st : PluginState)
    (h : st.sortStates ≠ []) :
    ((sortByPresetSortState host st).rowsMapperArray).Perm (List.range host.countRows) := by
  rw [sortByPresetSortState_rowsMapperArray host st h]
  have hkN : (getNumberOfRowsToSort host.maxRows host.minSpareRows host.countRows).toNat ≤
      host.countRows := getNumberOfRowsToSort_le _ _ _
  set k := (getNumberOfRowsToSort host.maxRows host.minSpareRows host.countRows).toNat with hk
  have h1 : ((((List.range k).map (rowSnapshot host (sortedColumns st))).mergeSort
      (snapshotLe host st)).map (fun s : Snapshot => s.1)).Perm (List.range k) := by
    have h0 := (List.mergeSort_perm ((List.range k).map (rowSnapshot host (sortedColumns st)))
      (snapshotLe host st)).map (fun s : Snapshot => s.1)
    rwa [map_fst_map_rowSnapshot] at h0
  have h3 : List.range k ++ List.range' k (host.countRows - k) = List.range host.countRows := by
    have h4 := List.range'_append_1 0 k (host.countRows - k)
    rw [Nat.zero_add, Nat.sub_add_cancel hkN] at h4
    simp only [List.range_eq_range']
    exact h4
  rw [← h3]
  exact h1.append_right _

/-- Witness for C1: a concrete three-row sort produces a permutation of
`0 .. 2`. -/
theorem sortByPresetSortState_perm_range_witness :
    ((sortByPresetSortState (exampleHost false) exState0).rowsMapperArray).Perm
      (List.range 3) :=
  sortByPresetSortState_perm_range (exampleHost false) exState0 (by decide)

/-- Claim C2 (amended): on any host and non-empty criteria queue whose
composite comparator induces a transitive and total snapshot ordering, two
rows whose snapshots compare equal keep their pre-sort relative order after
the sort pass (including spare rows).  The claim as stated — without the
consistency hypotheses — is false; see the counterexample. -/
theorem sortByPresetSortState_stable_of_consistent (host : Host) (st : PluginState)
    (i j : Nat) (hij : i < j) (hjN : j < host.countRows) (hne : st.sortStates ≠ [])
    (htrans : ∀ a b c : Snapshot, snapshotLe host st a b → snapshotLe host st b c →
      snapshotLe host st a c)
    (htotal : ∀ a b : Snapshot, snapshotLe host st a b || snapshotLe host st b a)
    (heq : mainSortComparator (criteriaSpecs host st)
      (rowSnapshot host (sortedColumns st) i) (rowSnapshot host (sortedColumns st) j) = 0) :
    [i, j].Sublist ((sortByPresetSortState host st).rowsMapperArray) := by
  rw [sortByPresetSortState_rowsMapperArray host st hne]
  have hkN : (getNumberOfRowsToSort host.maxRows host.minSpareRows host.countRows).toNat ≤
      host.countRows := getNumberOfRowsToSort_le _ _ _
  set k := (getNumberOfRowsToSort host.maxRows host.minSpareRows host.countRows).toNat with hk
  have hle : snapshotLe host st (rowSnapshot host (sortedColumns st) i)
      (rowSnapshot host (sortedColumns st) j) := by
    simp [snapshotLe, heq]
  by_cases hjk : j < k
  · have hsub : [rowSnapshot host (sortedColumns st) i,
        rowSnapshot host (sortedColumns st) j].Sublist
        ((List.range k).map (rowSnapshot host (sortedColumns st))) := by
      have h0 := (pair_sublist_range hij hjk).map (rowSnapshot host (sortedColumns st))
      simpa using h0
    have hstable := List.pair_sublist_mergeSort htrans htotal hle hsub
    have h1 := hstable.map (fun s : Snapshot => s.1)
    simp only [List.map_cons, List.map_nil, rowSnapshot] at h1
    exact h1.trans (List.sublist_append_left _ _)
  · by_cases hik : i < k
    · have hperm : ((((List.range k).map (rowSnapshot host (sortedColumns st))).mergeSort
          (snapshotLe host st)).map (fun s : Snapshot => s.1)).Perm (List.range k) := by
        have h0 := (List.mergeSort_perm ((List.range k).map (rowSnapshot host (sortedColumns st)))
          (snapshotLe host st)).map (fun s : Snapshot => s.1)
        rwa [map_fst_map_rowSnapshot] at h0
      have hi : i ∈ (((List.range k).map (rowSnapshot host (sortedColumns st))).mergeSort
          (snapshotLe host st)).map (fun s : Snapshot => s.1) :=
        hperm.mem_iff.mpr (List.mem_range.mpr hik)
      have hj : j ∈ List.range' k (host.countRows - k) := by
        rw [List.mem_range'_1]
        omega
      exact List.Sublist.append (List.singleton_sublist.mpr hi) (List.singleton_sublist.mpr hj)
    · have hki : k ≤ i := Nat.le_of_not_lt hik
      have hsub : [i, j].Sublist (List.range' k (host.countRows - k)) := by
        rw [List.range'_eq_map_range]
        have h1 : [i - k, j - k].Sublist (List.range (host.countRows - k)) :=
          pair_sublist_range (by omega) (by omega)
        have h2 := h1.map (k + ·)
        have e1 : k + (i - k) = i := by omega
        have e2 : k + (j - k) = j := by omega
        simpa [e1, e2] using h2
      exact hsub.trans (List.sublist_append_right _ _)

/-- Witness for C2: two fully equal rows under a consistent date column
keep their order. -/
theorem sortByPresetSortState_stable_of_consistent_witness :
    [0, 1].Sublist ((sortByPresetSortState w2Host w2State).rowsMapperArray) :=
  sortByPresetSortState_stable_of_consistent w2Host w2State 0 1 (by decide) (by decide)
    (by decide) w2_snapshotLe_trans w2_snapshotLe_total (by rfl)

/-- Counterexample for C2 as stated: with one ascending date column over
values `["foo", "bar", "foo", "2020"]`, rows 0 and 2 compare equal under
every criterion (their values are identical), yet after the sort pass row 2
precedes row 0 (the mapper is `[3, 2, 1, 0]`): the two unparsable values
`"foo"` and `"bar"` each compare after the other, making the comparator
inconsistent, and the stable merge sort then inverts the equal rows. -/
theorem sortByPresetSortState_stability_counterexample :
    mainSortComparator (criteriaSpecs cxHost exState0)
      (rowSnapshot cxHost (sortedColumns exState0) 0)
      (rowSnapshot cxHost (sortedColumns exState0) 2) = 0 ∧
    ¬ ([0, 2].Sublist ((sortByPresetSortState cxHost exState0).rowsMapperArray)) := by
  constructor
  · rfl
  · have h : (sortByPresetSortState cxHost exState0).rowsMapperArray = [3, 2, 1, 0] := by
      simp [sortByPresetSortState, cxHost, exState0, getNumberOfRowsToSort, sortedColumns,
        criteriaSpecs, rowSnapshot, snapshotLe, mainSortComparator, compareList, dateSort,
        isEmptyVal, exampleParse, List.mergeSort, List.range, List.range', List.range.loop,
        FIRST_AFTER_SECOND, FIRST_BEFORE_SECOND, DO_NOT_SWAP]
    rw [h]
    decide

end MultiColumnSorting

namespace MultiColumnSorting

/-- Claim C3 (amended): a sort configuration rejected by the code's
validation — a duplicate column, an unrecognized direction, or a column
index outside `0 ≤ index ≤ countCols` (the code's upper bound is
non-strict, so `index = countCols` is accepted; see the counterexample) —
makes the whole `sort()` call a no-op: the plugin state (criteria queue,
rows mapper, persisted settings) is unchanged and `afterColumnSort`
receives validity flag `false`; no exception is thrown (the function is
total). -/
theorem sort_rejects_invalid_configs (host : Host) (toPhys : Int → Int) (st : PluginState)
    (input : SortInput)
    (h : areValidSortConfigs host.countCols (normalizeSortConfig input) = false) :
    sort host toPhys true st input = (st, some false) := by
  simp [sort, h]

/-- Witness for C3: a duplicate-column queue is rejected with the prior
state intact. -/
theorem sort_rejects_invalid_configs_witness :
    sort boundHost (fun c => c) true exState0
      (SortInput.configs [{ column := 0, sortOrder := "asc" },
        { column := 0, sortOrder := "desc" }]) = (exState0, some false) :=
  sort_rejects_invalid_configs boundHost (fun c => c) exState0
    (SortInput.configs [{ column := 0, sortOrder := "asc" },
      { column := 0, sortOrder := "desc" }]) (by decide)

/-- Counterexample for C3 as stated: with 2 columns, the configuration
`[{column: 2, sortOrder: "asc"}]` is out of range under the claim's strict
bound (`2 < 2` fails), yet the call is accepted: `afterColumnSort` receives
validity flag `true`, not `false` (the source checks
`visualColumn <= numberOfColumns`). -/
theorem sort_accepts_column_equal_to_count_counterexample :
    (sort boundHost (fun c => c) true exState0
      (SortInput.configs [{ column := 2, sortOrder := "asc" }])).2 = some true := by
  simp [sort, areValidSortConfigs, areValidSortStates, normalizeSortConfig, boundHost]

/-- Claim C4: in the date strategy, when exactly one compared value is
empty: with `sortEmptyCells = false` the empty value is ordered after the
non-empty one regardless of direction; with `sortEmptyCells = true` the
empty value is ordered first in ascending and last in descending order.
Consequently a one-column ascending sort of values `[5, null, 3]` yields
value order `[3, 5, null]` with `sortEmptyCells = false` and
`[null, 3, 5]` with `sortEmptyCells = true`. -/
theorem dateSort_empty_cell_policy :
    (∀ (parse : JSVal → Option Int) (sortOrder : String) (v w : JSVal) (next : Int),
      isEmptyVal v = true → isEmptyVal w = false →
        dateSort parse false sortOrder v w next = FIRST_AFTER_SECOND ∧
        dateSort parse false sortOrder w v next = FIRST_BEFORE_SECOND ∧
        dateSort parse true "asc" v w next = FIRST_BEFORE_SECOND ∧
        dateSort parse true "desc" v w next = FIRST_AFTER_SECOND ∧
        dateSort parse true "asc" w v next = FIRST_AFTER_SECOND ∧
        dateSort parse true "desc" w v next = FIRST_BEFORE_SECOND) ∧
    ((sortByPresetSortState (exampleHost false) exState0).rowsMapperArray).map
      (fun r => (exampleHost false).cellData r 0) = [JSVal.num 3, JSVal.num 5, JSVal.null] ∧
    ((sortByPresetSortState (exampleHost true) exState0).rowsMapperArray).map
      (fun r => (exampleHost true).cellData r 0) = [JSVal.null, JSVal.num 3, JSVal.num 5] := by
  refine ⟨?_, ?_, ?_⟩
  · intro parse sortOrder v w next hv hw
    have hvw : v ≠ w := fun h => by rw [h, hw] at hv; cases hv
    have hwv : w ≠ v := fun h => hvw h.symm
    refine ⟨?_, ?_, ?_, ?_, ?_, ?_⟩ <;> simp [dateSort, hv, hw, hvw, hwv]
  · simp [sortByPresetSortState, exampleHost, exState0, getNumberOfRowsToSort, sortedColumns,
      criteriaSpecs, rowSnapshot, snapshotLe, mainSortComparator, compareList, dateSort,
      isEmptyVal, exampleParse, List.mergeSort, List.range, List.range', List.range.loop,
      FIRST_AFTER_SECOND, FIRST_BEFORE_SECOND, DO_NOT_SWAP]
  · simp [sortByPresetSortState, exampleHost, exState0, getNumberOfRowsToSort, sortedColumns,
      criteriaSpecs, rowSnapshot, snapshotLe, mainSortComparator, compareList, dateSort,
      isEmptyVal, exampleParse, List.mergeSort, List.range, List.range', List.range.loop,
      FIRST_AFTER_SECOND, FIRST_BEFORE_SECOND, DO_NOT_SWAP]

/-- Witness for C4: a `null` against a number with `sortEmptyCells = false`
and descending order sorts after it. -/
theorem dateSort_empty_cell_policy_witness :
    dateSort (fun _ => none) false "desc" JSVal.null (JSVal.num 7) 5 = FIRST_AFTER_SECOND :=
  (dateSort_empty_cell_policy.1 (fun _ => none) "desc" JSVal.null (JSVal.num 7) 5 rfl rfl).1

/-- Claim C5 (amended): for non-empty compared values in the date strategy:
an unparsable first value sorts after the second unconditionally — in
particular, when both values are unparsable (and not strictly equal) the
comparator returns first-after-second instead of deferring to the next
criterion, which is the correction to the claim; equal raw values defer
before parsing; an unparsable second value sorts after a parsable first
one; two parsable dates compare chronologically, inverted by a descending
direction. -/
theorem dateSort_parse_ordering :
    (∀ (parse : JSVal → Option Int) (sec : Bool) (sortOrder : String) (v w : JSVal) (next : Int),
      isEmptyVal v = false → isEmptyVal w = false → v ≠ w →
        (parse v = none → dateSort parse sec sortOrder v w next = FIRST_AFTER_SECOND) ∧
        (∀ d, parse v = some d → parse w = none →
          dateSort parse sec sortOrder v w next = FIRST_BEFORE_SECOND) ∧
        (∀ d1 d2, parse v = some d1 → parse w = some d2 →
          dateSort parse sec sortOrder v w next =
            if d1 < d2 then (if sortOrder = "asc" then FIRST_BEFORE_SECOND else FIRST_AFTER_SECOND)
            else if d2 < d1 then
              (if sortOrder = "asc" then FIRST_AFTER_SECOND else FIRST_BEFORE_SECOND)
            else DO_NOT_SWAP)) ∧
    (∀ (parse : JSVal → Option Int) (sec : Bool) (sortOrder : String) (v : JSVal) (next : Int),
      dateSort parse sec sortOrder v v next = next) := by
  constructor
  · intro parse sec sortOrder v w next hv hw hvw
    refine ⟨?_, ?_, ?_⟩
    · intro hp
      simp [dateSort, hv, hw, hvw, hp]
    · intro d hp1 hp2
      simp [dateSort, hv, hw, hvw, hp1, hp2]
    · intro d1 d2 hp1 hp2
      simp [dateSort, hv, hw, hvw, hp1, hp2]
  · intro parse sec sortOrder v next
    simp [dateSort]

/-- Witness for C5: an unparsable value sorts after, even in descending
order with `sortEmptyCells = true`. -/
theorem dateSort_parse_ordering_witness :
    dateSort (fun _ => none) true "desc" (JSVal.str "a") (JSVal.str "b") 7 =
      FIRST_AFTER_SECOND :=
  ((dateSort_parse_ordering.1 (fun _ => none) true "desc" (JSVal.str "a") (JSVal.str "b") 7
    rfl rfl (by decide)).1 rfl)

/-- Counterexample for C5 as stated: with both values unparsable and no
further criteria the claim requires the comparator to defer, i.e. return
`DO_NOT_SWAP`; the code returns `FIRST_AFTER_SECOND` at the first
`isValid()` check. -/
theorem dateSort_both_unparsable_counterexample :
    dateSort (fun _ => none) false "asc" (JSVal.str "foo") (JSVal.str "bar") DO_NOT_SWAP ≠
      DO_NOT_SWAP := by decide

end MultiColumnSorting

namespace MultiColumnSorting

/-- Claim C6 (amended): `getNumberOfRowsToSort` equals the configured
`maxRows` — with no spare-row subtraction — whenever `maxRows` does not
exceed the total row count, and `totalRows - minSpareRows` otherwise
(only in that branch does it equal `min(maxRows, totalRows)` minus the
spare count); the value may be negative (the sort pass's loop bound then
clamps it to zero, and it never exceeds the row count). -/
theorem getNumberOfRowsToSort_characterization (m minSpareRows numberOfRows : Nat) :
    (m ≤ numberOfRows →
      getNumberOfRowsToSort (some m) minSpareRows numberOfRows =
        ((min m numberOfRows : Nat) : Int)) ∧
    (numberOfRows < m →
      getNumberOfRowsToSort (some m) minSpareRows numberOfRows =
        ((min m numberOfRows : Nat) : Int) - (minSpareRows : Int)) ∧
    getNumberOfRowsToSort none minSpareRows numberOfRows =
      (numberOfRows : Int) - (minSpareRows : Int) ∧
    (getNumberOfRowsToSort (some m) minSpareRows numberOfRows).toNat ≤ numberOfRows := by
  refine ⟨?_, ?_, ?_, ?_⟩ <;> simp only [getNumberOfRowsToSort] <;> try split
  all_goals (intros; omega)

/-- Witness for C6: with `maxRows = 3` and 7 rows the count is `maxRows`
itself. -/
theorem getNumberOfRowsToSort_characterization_witness :
    getNumberOfRowsToSort (some 3) 1 7 = ((min 3 7 : Nat) : Int) :=
  (getNumberOfRowsToSort_characterization 3 1 7).1 (by decide)

/-- Counterexample for C6 as stated: with `maxRows = 5`, 2 spare rows and
10 total rows the code returns 5, not `min(5, 10) - 2 = 3`; and with
unbounded `maxRows`, 2 spare rows and 1 total row the result is negative. -/
theorem getNumberOfRowsToSort_counterexample :
    getNumberOfRowsToSort (some 5) 2 10 ≠ ((min 5 10 : Nat) : Int) - 2 ∧
    getNumberOfRowsToSort none 2 1 < 0 := by decide

/-- Claim C7: when `beforeColumnSort` vetoes (returns `false`), `sort`
returns before mutating anything: criteria queue, rows mapper and persisted
settings are exactly as before (the whole state is unchanged and no
`afterColumnSort` notification is produced). -/
theorem sort_veto_preserves_state (host : Host) (toPhys : Int → Int) (st : PluginState)
    (input : SortInput) :
    sort host toPhys false st input = (st, none) := by
  simp [sort]

/-- Claim C8: with fixed host data, calling `sort` twice in a row with the
same configuration leaves the rows mapper equal to its value after the
first call (the sort pass reads raw, untranslated data, so its result does
not depend on the mapper being replaced). -/
theorem sort_idempotent_mapping (host : Host) (toPhys : Int → Int) (st : PluginState)
    (input : SortInput) :
    ((sort host toPhys true ((sort host toPhys true st input).1) input).1).rowsMapperArray =
      ((sort host toPhys true st input).1).rowsMapperArray := by
  by_cases hposs : areValidSortConfigs host.countCols (normalizeSortConfig input) = true
  · simp only [sort, hposs, if_true, Bool.true_eq_false, if_false]
    exact sortByPresetSortState_mapper_congr host rfl
  · simp only [sort, Bool.true_eq_false, if_false, eq_self_iff_true]
    rw [if_neg hposs, if_neg hposs]

/-- Claim C9: the operations that set the translation-suppression flag to
read raw data leave it cleared on exit: a sort pass with a non-empty
criteria queue, and `getFirstCellSettings` unconditionally. -/
theorem translation_blockade_released (host : Host) (st : PluginState) (column : Int)
    (h : st.sortStates ≠ []) :
    (sortByPresetSortState host st).blockPluginTranslation = false ∧
    (getFirstCellSettings host st column).2.blockPluginTranslation = false := by
  constructor
  · unfold sortByPresetSortState
    rw [if_neg (by simpa using h)]
  · rfl

/-- Witness for C9 at a concrete host and state. -/
theorem translation_blockade_released_witness :
    (sortByPresetSortState (exampleHost true) exState0).blockPluginTranslation = false ∧
    (getFirstCellSettings (exampleHost true) exState0 0).2.blockPluginTranslation = false :=
  translation_blockade_released (exampleHost true) exState0 0 (by decide)

/-- Claim C10: `onModifyRow` returns the input row unchanged when
translation is suppressed, when the request's source tag is the plugin's
own name, or when the mapper has no entry for that index; only otherwise
does it return the mapped physical index. -/
theorem onModifyRow_translation (st : PluginState) (row : Nat) (source : String) :
    (st.blockPluginTranslation = true → onModifyRow st row source = row) ∧
    (source = pluginName → onModifyRow st row source = row) ∧
    (getValueByIndex st row = none → onModifyRow st row source = row) ∧
    (∀ p, st.blockPluginTranslation = false → source ≠ pluginName →
      getValueByIndex st row = some p → onModifyRow st row source = p) := by
  refine ⟨?_, ?_, ?_, ?_⟩
  · intro h; simp [onModifyRow, h]
  · intro h; simp [onModifyRow, h]
  · intro h
    by_cases hc : st.blockPluginTranslation = false ∧ source ≠ pluginName
    · simp [onModifyRow, hc, h]
    · simp [onModifyRow, hc]
  · intro p h1 h2 h3
    simp [onModifyRow, h1, h2, h3]

/-- Witness for C10: with mapper `[5, 7]`, visual row 1 translates to
physical row 7 for a foreign source. -/
theorem onModifyRow_translation_witness :
    onModifyRow w10State 1 "loadData" = 7 :=
  (onModifyRow_translation w10State 1 "loadData").2.2.2 7 rfl (by decide) rfl

end MultiColumnSorting
